import Mathlib

/-!
Verification development for the framebuffer layout and pixel-conversion
helpers of lib/igt_fb.c: stride/size calculation, tile geometry, plane
dimensioning, modifier/tiling conversion, and the NV12 to packed-RGB
conversions (single-precision float arithmetic is embedded as exact
rational arithmetic).
-/

namespace IgtFb

/-- Hardware device as seen by the layout code: `gen` embeds
`intel_gen(intel_get_drm_devid(fd))` and `is915` embeds
`IS_915(intel_get_drm_devid(fd))`. -/
structure Device where
  gen : Nat
  is915 : Bool
deriving DecidableEq

/-- drm fourcc code builder: byte values below 256, so the C bitwise-or of
shifted bytes equals this sum. -/
def fourcc_code (a b c d : Nat) : Nat := a + b * 256 + c * 65536 + d * 16777216

def DRM_FORMAT_RGB565 : Nat := fourcc_code 82 71 49 54

def DRM_FORMAT_XRGB8888 : Nat := fourcc_code 88 82 50 52

def DRM_FORMAT_XRGB2101010 : Nat := fourcc_code 88 82 51 48

def DRM_FORMAT_ARGB8888 : Nat := fourcc_code 65 82 50 52

def DRM_FORMAT_NV12 : Nat := fourcc_code 78 86 49 50

/-- drm-uapi: DRM_FORMAT_MOD_NONE = fourcc_mod_code(NONE, 0). -/
def LOCAL_DRM_FORMAT_MOD_NONE : Nat := 0

/-- drm-uapi: fourcc_mod_code(INTEL, 1). -/
def LOCAL_I915_FORMAT_MOD_X_TILED : Nat := 2 ^ 56 + 1

/-- drm-uapi: fourcc_mod_code(INTEL, 2). -/
def LOCAL_I915_FORMAT_MOD_Y_TILED : Nat := 2 ^ 56 + 2

/-- drm-uapi: fourcc_mod_code(INTEL, 3). -/
def LOCAL_I915_FORMAT_MOD_Yf_TILED : Nat := 2 ^ 56 + 3

def I915_TILING_NONE : Nat := 0

def I915_TILING_X : Nat := 1

def I915_TILING_Y : Nat := 2

def I915_TILING_Yf : Nat := 3

/-- C macro ALIGN(v, a) = (v + a - 1) & ~(a - 1): rounds `v` up to a
multiple of the power-of-two `a`, written in arithmetic form. -/
def ALIGN (v a : Nat) : Nat := (v + a - 1) / a * a

/-- One row of the static `format_desc[]` table. The packed RGB entries
leave `planes` and `plane_bpp` zero-initialized, exactly as the C
designated initializers do. -/
structure format_desc_struct where
  drm_id : Nat
  bpp : Nat
  depth : Int
  planes : Nat
  plane_bpp : List Nat
deriving DecidableEq

def rgb565_fmt : format_desc_struct :=
  ⟨DRM_FORMAT_RGB565, 16, 16, 0, []⟩

def xrgb8888_fmt : format_desc_struct :=
  ⟨DRM_FORMAT_XRGB8888, 32, 24, 0, []⟩

def xrgb2101010_fmt : format_desc_struct :=
  ⟨DRM_FORMAT_XRGB2101010, 32, 30, 0, []⟩

def argb8888_fmt : format_desc_struct :=
  ⟨DRM_FORMAT_ARGB8888, 32, 32, 0, []⟩

def nv12_fmt : format_desc_struct :=
  ⟨DRM_FORMAT_NV12, 32, -1, 2, [8, 16]⟩

/-- The static registry `format_desc[]`. -/
def format_desc : List format_desc_struct :=
  [rgb565_fmt, xrgb8888_fmt, xrgb2101010_fmt, argb8888_fmt, nv12_fmt]

/-- lookup_drm_format: first registry entry whose drm_id matches. -/
def lookup_drm_format (drm_format : Nat) : Option format_desc_struct :=
  format_desc.find? (fun f => f.drm_id == drm_format)

/-- igt_get_fb_tile_size: tile width in bytes and tile height in rows for a
tiling modifier; `none` embeds the `igt_assert(false)` aborts on an
unrecognized tiling or, for Yf, an unrecognized bpp. -/
def igt_get_fb_tile_size (dev : Device) (tiling : Nat) (fb_bpp : Nat) :
    Option (Nat × Nat) :=
  if tiling = LOCAL_DRM_FORMAT_MOD_NONE then
    some (64, 1)
  else if tiling = LOCAL_I915_FORMAT_MOD_X_TILED then
    if dev.gen = 2 then some (128, 16) else some (512, 8)
  else if tiling = LOCAL_I915_FORMAT_MOD_Y_TILED then
    if dev.gen = 2 then some (128, 16)
    else if dev.is915 then some (512, 8)
    else some (128, 32)
  else if tiling = LOCAL_I915_FORMAT_MOD_Yf_TILED then
    if fb_bpp = 8 then some (64, 64)
    else if fb_bpp = 16 ∨ fb_bpp = 32 then some (128, 32)
    else if fb_bpp = 64 ∨ fb_bpp = 128 then some (256, 16)
    else none
  else
    none

/-- planar_width: NV12 plane 1 is (width + 1) / 2 wide, other planes keep
the full width. -/
def planar_width (format : format_desc_struct) (width plane : Nat) : Nat :=
  if format.drm_id = DRM_FORMAT_NV12 ∧ plane = 1 then (width + 1) / 2
  else width

/-- planar_stride: plane width times bytes per pixel of that plane. -/
def planar_stride (format : format_desc_struct) (width plane : Nat) : Nat :=
  planar_width format width plane * (format.plane_bpp.getD plane 0 / 8)

/-- planar_height: NV12 plane 1 is (height + 1) / 2 tall. -/
def planar_height (format : format_desc_struct) (height plane : Nat) : Nat :=
  if format.drm_id = DRM_FORMAT_NV12 ∧ plane = 1 then (height + 1) / 2
  else height

/-- First loop of calc_fb_size_planar: fold the tile-aligned per-plane
strides into their maximum, failing if a tile-size lookup aborts. -/
def planar_stride_fold (dev : Device) (width : Nat) (format : format_desc_struct)
    (tiling : Nat) : List Nat → Nat → Option Nat
  | [], stride => some stride
  | plane :: rest, stride =>
    match igt_get_fb_tile_size dev tiling (format.plane_bpp.getD plane 0) with
    | none => none
    | some ts =>
      planar_stride_fold dev width format tiling rest
        (max stride (ALIGN (planar_stride format width plane) ts.1))

/-- Second loop of calc_fb_size_planar: record the running size as each
plane offset, then add stride times the tile-aligned plane height. -/
def planar_size_fold (dev : Device) (height : Nat) (format : format_desc_struct)
    (tiling stride : Nat) : List Nat → Nat → List Nat → Option (Nat × List Nat)
  | [], size, offs => some (size, offs)
  | plane :: rest, size, offs =>
    match igt_get_fb_tile_size dev tiling (format.plane_bpp.getD plane 0) with
    | none => none
    | some ts =>
      planar_size_fold dev height format tiling stride rest
        (size + stride * ALIGN (planar_height format height plane) ts.2)
        (offs ++ [size])

/-- calc_fb_size_planar: returns (size, stride, offsets), with the offsets
array padded with zeroes from the declared plane count up to 4. -/
def calc_fb_size_planar (dev : Device) (width height : Nat)
    (format : format_desc_struct) (tiling : Nat) :
    Option (Nat × Nat × List Nat) :=
  match planar_stride_fold dev width format tiling (List.range format.planes) 0 with
  | none => none
  | some stride =>
    match planar_size_fold dev height format tiling stride
        (List.range format.planes) 0 [] with
    | none => none
    | some (size, offs) =>
      some (size, stride, offs ++ List.replicate (4 - format.planes) 0)

/-- Fuel-indexed body of the C loop `for (x = start; x < v; x *= 2);`.
With any start of at least 1 the doubling sequence passes `v` within `v`
steps, so fuel `v` reproduces the loop exactly. -/
def pot_loop : Nat → Nat → Nat → Nat
  | 0, x, _ => x
  | fuel + 1, x, v => if x < v then pot_loop fuel (x * 2) v else x

/-- The C loop `for (x = start; x < v; x *= 2);`. -/
def pot_from (start v : Nat) : Nat := pot_loop v start v

/-- calc_fb_size_packed, returning (size, stride). The tile-size lookup
happens before the generation branch, exactly as in the C code. -/
def calc_fb_size_packed (dev : Device) (width height : Nat)
    (format : format_desc_struct) (tiling : Nat) : Option (Nat × Nat) :=
  match igt_get_fb_tile_size dev tiling format.bpp with
  | none => none
  | some ts =>
    let byte_width := width * (format.bpp / 8)
    if tiling ≠ LOCAL_DRM_FORMAT_MOD_NONE ∧ dev.gen ≤ 3 then
      let stride := pot_from 512 byte_width
      let size := pot_from (1024 * 1024) (stride * height)
      some (size, stride)
    else
      let stride := ALIGN byte_width ts.1
      some (stride * ALIGN height ts.2, stride)

/-- igt_calc_fb_size: registry lookup, then the planar or packed
calculator; `none` embeds the `igt_assert(format)` abort. -/
def igt_calc_fb_size (dev : Device) (width height drm_format tiling : Nat) :
    Option (Nat × Nat) :=
  match lookup_drm_format drm_format with
  | none => none
  | some format =>
    if format.planes > 1 then
      match calc_fb_size_planar dev width height format tiling with
      | none => none
      | some (size, stride, _) => some (size, stride)
    else
      calc_fb_size_packed dev width height format tiling

/-- igt_fb_mod_to_tiling; `none` embeds the `igt_assert(0)` abort. -/
def igt_fb_mod_to_tiling (modifier : Nat) : Option Nat :=
  if modifier = LOCAL_DRM_FORMAT_MOD_NONE then some I915_TILING_NONE
  else if modifier = LOCAL_I915_FORMAT_MOD_X_TILED then some I915_TILING_X
  else if modifier = LOCAL_I915_FORMAT_MOD_Y_TILED then some I915_TILING_Y
  else if modifier = LOCAL_I915_FORMAT_MOD_Yf_TILED then some I915_TILING_Yf
  else none

/-- igt_fb_tiling_to_mod; `none` embeds the `igt_assert(0)` abort. -/
def igt_fb_tiling_to_mod (tiling : Nat) : Option Nat :=
  if tiling = I915_TILING_NONE then some LOCAL_DRM_FORMAT_MOD_NONE
  else if tiling = I915_TILING_X then some LOCAL_I915_FORMAT_MOD_X_TILED
  else if tiling = I915_TILING_Y then some LOCAL_I915_FORMAT_MOD_Y_TILED
  else if tiling = I915_TILING_Yf then some LOCAL_I915_FORMAT_MOD_Yf_TILED
  else none

/-- Offsets produced by create_bo_for_fb: the planar calculator fills them
for multi-plane formats; otherwise they are memset to zero on the
calculated path, and stay at the zero from the memset of the whole igt_fb
struct in igt_create_fb_with_bo_size on the dumb-buffer path. -/
def create_bo_offsets (dev : Device) (width height : Nat)
    (format : format_desc_struct) (tiling size stride : Nat) :
    Option (List Nat) :=
  if tiling ≠ 0 ∨ size ≠ 0 ∨ stride ≠ 0 ∨ format.planes > 1 then
    if format.planes > 1 then
      match calc_fb_size_planar dev width height format tiling with
      | none => none
      | some (_, _, offs) => some offs
    else
      some [0, 0, 0, 0]
  else
    some [0, 0, 0, 0]

/-- Plane width recorded into igt_fb: plane_width[0] is set to width, then
every plane below the declared plane count is overwritten with
planar_width; slots never written stay at their zero initialization. -/
def fb_plane_width (format : format_desc_struct) (width plane : Nat) : Nat :=
  if plane < format.planes then planar_width format width plane
  else if plane = 0 then width
  else 0

/-- Plane height recorded into igt_fb, mirroring fb_plane_width. -/
def fb_plane_height (format : format_desc_struct) (height plane : Nat) : Nat :=
  if plane < format.planes then planar_height format height plane
  else if plane = 0 then height
  else 0

/-! ### NV12 to packed RGB conversion

The C converters compute in single-precision float; the embedding computes
the same expressions in exact rational arithmetic. Casting a float to
`uint8_t` truncates toward zero and, on the two-complement targets igt
runs on, an out-of-range integral part would wrap modulo 256; `cast_u8`
captures that. -/

/-- Truncation toward zero, as the C float-to-integer conversion does. -/
def ctrunc (v : ℚ) : Int := if 0 ≤ v then ⌊v⌋ else ⌈v⌉

/-- The `(uint8_t)` cast applied to a float value. -/
def cast_u8 (v : ℚ) : Nat := (ctrunc v % 256).toNat

/-- clamprgb: clamp to [0, 255], then convert to `uint8_t`. -/
def clamprgb (val : ℚ) : Nat :=
  if val < 0 then 0
  else if 255 < val then 255
  else (ctrunc val).toNat

/-- Red intermediate of convert_nv12_to_rgb24: `y0 + r_` with
`y0 = 1.164f * (y - 16.f)`, `r_ = 0.000f * cb + 1.793f * cr`. -/
def decodeR (yv cb cr : Nat) : ℚ :=
  (1164 : ℚ) / 1000 * ((yv : ℚ) - 16) +
    (0 * ((cb : ℚ) - 128) + (1793 : ℚ) / 1000 * ((cr : ℚ) - 128))

/-- Green intermediate of convert_nv12_to_rgb24: `y0 + g_` with
`g_ = -0.213f * cb + -0.533f * cr`. -/
def decodeG (yv cb cr : Nat) : ℚ :=
  (1164 : ℚ) / 1000 * ((yv : ℚ) - 16) +
    (-((213 : ℚ) / 1000) * ((cb : ℚ) - 128) +
      -((533 : ℚ) / 1000) * ((cr : ℚ) - 128))

/-- Blue intermediate of convert_nv12_to_rgb24: `y0 + b_` with
`b_ = 2.112f * cb + 0.000f * cr`. -/
def decodeB (yv cb cr : Nat) : ℚ :=
  (1164 : ℚ) / 1000 * ((yv : ℚ) - 16) +
    ((2112 : ℚ) / 1000 * ((cb : ℚ) - 128) + 0 * ((cr : ℚ) - 128))

/-- One pixel of convert_nv12_to_rgb24: every channel is written through
clamprgb. -/
def yuv_to_rgb (yv cb cr : Nat) : Nat × Nat × Nat :=
  (clamprgb (decodeR yv cb cr), clamprgb (decodeG yv cb cr),
    clamprgb (decodeB yv cb cr))

/-- Luma intermediate of convert_rgb24_to_nv12:
`0.183f * R + 0.614f * G + 0.062f * B + 16`. -/
def encodeYf (r g b : Nat) : ℚ :=
  (183 : ℚ) / 1000 * r + (614 : ℚ) / 1000 * g + (62 : ℚ) / 1000 * b + 16

/-- One luma byte of convert_rgb24_to_nv12: a bare `(uint8_t)` cast with no
clamping in the C code. -/
def rgb_to_y (r g b : Nat) : Nat := cast_u8 (encodeYf r g b)

/-- Cb intermediate of the two-row (averaged) chroma loop of
convert_rgb24_to_nv12. -/
def encodeUf2 (r0 g0 b0 r1 g1 b1 : Nat) : ℚ :=
  -((101 : ℚ) / 1000) / 2 * r0 + -((101 : ℚ) / 1000) / 2 * r1 +
    -((339 : ℚ) / 1000) / 2 * g0 + -((339 : ℚ) / 1000) / 2 * g1 +
    (439 : ℚ) / 1000 / 2 * b0 + (439 : ℚ) / 1000 / 2 * b1 + 128

/-- Cr intermediate of the two-row (averaged) chroma loop. -/
def encodeVf2 (r0 g0 b0 r1 g1 b1 : Nat) : ℚ :=
  (439 : ℚ) / 1000 / 2 * r0 + (439 : ℚ) / 1000 / 2 * r1 +
    -((339 : ℚ) / 1000) / 2 * g0 + -((339 : ℚ) / 1000) / 2 * g1 +
    -((40 : ℚ) / 1000) / 2 * b0 + -((40 : ℚ) / 1000) / 2 * b1 + 128

/-- Cb intermediate of the single-row (odd final row) chroma loop. -/
def encodeUf1 (r g b : Nat) : ℚ :=
  -((101 : ℚ) / 1000) * r + -((339 : ℚ) / 1000) * g +
    (439 : ℚ) / 1000 * b + 128

/-- Cr intermediate of the single-row (odd final row) chroma loop. -/
def encodeVf1 (r g b : Nat) : ℚ :=
  (439 : ℚ) / 1000 * r + -((339 : ℚ) / 1000) * g +
    -((40 : ℚ) / 1000) * b + 128

/-- Two-row chroma pair of convert_rgb24_to_nv12: bare `(uint8_t)` casts. -/
def rgb2_to_uv (r0 g0 b0 r1 g1 b1 : Nat) : Nat × Nat :=
  (cast_u8 (encodeUf2 r0 g0 b0 r1 g1 b1), cast_u8 (encodeVf2 r0 g0 b0 r1 g1 b1))

/-- Single-row chroma pair for the odd final row: bare `(uint8_t)` casts. -/
def rgb1_to_uv (r g b : Nat) : Nat × Nat :=
  (cast_u8 (encodeUf1 r g b), cast_u8 (encodeVf1 r g b))

/-- convert_rgb24_to_nv12 as a whole: `none` embeds the
`igt_assert_f(fb->drm_format == DRM_FORMAT_NV12, ...)` abort; otherwise it
yields the luma plane (indexed by row and column) and the chroma plane
(indexed by chroma row and column pair), where chroma row `i` below
`height / 2` averages source rows `2 i` and `2 i + 1` at column `2 j`, and
the final unpaired row of an odd-height buffer uses the single-row
coefficients on row `2 i`. -/
def convert_rgb24_to_nv12 (height drm_format : Nat)
    (rgb : Nat → Nat → Nat × Nat × Nat) :
    Option ((Nat → Nat → Nat) × (Nat → Nat → Nat × Nat)) :=
  if drm_format = DRM_FORMAT_NV12 then
    some
      (fun i j =>
        rgb_to_y (rgb i j).1 (rgb i j).2.1 (rgb i j).2.2,
        fun i j =>
          if i < height / 2 then
            rgb2_to_uv (rgb (2 * i) (2 * j)).1 (rgb (2 * i) (2 * j)).2.1
              (rgb (2 * i) (2 * j)).2.2 (rgb (2 * i + 1) (2 * j)).1
              (rgb (2 * i + 1) (2 * j)).2.1 (rgb (2 * i + 1) (2 * j)).2.2
          else
            rgb1_to_uv (rgb (2 * i) (2 * j)).1 (rgb (2 * i) (2 * j)).2.1
              (rgb (2 * i) (2 * j)).2.2)
  else
    none

/-! ### Memory access pattern of convert_nv12_to_rgb24

The loops of convert_nv12_to_rgb24 read, for each 1x2 block row `i` below
`height / 2` and column `j`, the luma bytes at rows `2 i` and `2 i + 1` and
the shared chroma pair of row `i` (the C index expressions `j & ~1` and
`j | 1` are written `2 * (j / 2)` and `2 * (j / 2) + 1`); an odd final row
reads single luma bytes and the chroma pair of row `height / 2`. -/

/-- Every byte index convert_nv12_to_rgb24 reads from the copied linear
buffer, enumerated exactly as the C loops do. -/
def nv12_read_indices (width height stride off0 off1 : Nat) : List Nat :=
  ((List.range (height / 2)).flatMap fun i =>
    (List.range width).flatMap fun j =>
      [off0 + 2 * i * stride + j,
       off0 + 2 * i * stride + j + stride,
       off1 + i * stride + 2 * (j / 2),
       off1 + i * stride + (2 * (j / 2) + 1)]) ++
  (if height % 2 = 1 then
    (List.range width).flatMap fun j =>
      [off0 + (height - 1) * stride + j,
       off1 + height / 2 * stride + 2 * (j / 2),
       off1 + height / 2 * stride + (2 * (j / 2) + 1)]
  else [])

/-- Every (row, column) pixel convert_nv12_to_rgb24 writes into the packed
RGB surface, enumerated exactly as the C loops do. -/
def nv12_write_pixels (width height : Nat) : List (Nat × Nat) :=
  ((List.range (height / 2)).flatMap fun i =>
    (List.range width).flatMap fun j => [(2 * i, j), (2 * i + 1, j)]) ++
  (if height % 2 = 1 then
    (List.range width).map fun j => (height - 1, j)
  else [])

/-- A natural number is an exact power of two. -/
def is_pow2 (n : Nat) : Prop := ∃ k, n = 2 ^ k

/-! ## Helper lemmas -/

/-- Linear tiling always has 64-byte by 1-row tiles, on every device. -/
theorem tile_size_linear (dev : Device) (bpp : Nat) :
    igt_get_fb_tile_size dev LOCAL_DRM_FORMAT_MOD_NONE bpp = some (64, 1) := rfl

/-- The packed calculator on linear tiling takes the align path on every
device, including generations at most 3. -/
theorem calc_fb_size_packed_linear (dev : Device) (w h : Nat)
    (f : format_desc_struct) :
    calc_fb_size_packed dev w h f LOCAL_DRM_FORMAT_MOD_NONE =
      some (ALIGN (w * (f.bpp / 8)) 64 * h, ALIGN (w * (f.bpp / 8)) 64) := by
  unfold calc_fb_size_packed
  rw [tile_size_linear]
  simp [ALIGN]

/-- igt_calc_fb_size delegates to the packed calculator for a registered
format that does not declare more than one plane. -/
theorem igt_calc_fb_size_packed_fmt (dev : Device) (w h fmtid tiling : Nat)
    (f : format_desc_struct) (hf : lookup_drm_format fmtid = some f)
    (hp : f.planes ≤ 1) :
    igt_calc_fb_size dev w h fmtid tiling =
      calc_fb_size_packed dev w h f tiling := by
  simp only [igt_calc_fb_size, hf]
  rw [if_neg (by omega)]

/-- Rounding up to the nearest nat multiple of half matches the rational
ceiling of the exact half. -/
theorem nat_succ_half_eq_ceil (n : Nat) :
    (((n + 1) / 2 : Nat) : ℤ) = ⌈(n : ℚ) / 2⌉ := by
  have h1 : n ≤ 2 * ((n + 1) / 2) := by omega
  have h2 : 2 * ((n + 1) / 2) ≤ n + 1 := by omega
  have h1q : (n : ℚ) ≤ 2 * (((n + 1) / 2 : Nat) : ℚ) := by exact_mod_cast h1
  have h2q : 2 * (((n + 1) / 2 : Nat) : ℚ) ≤ (n : ℚ) + 1 := by exact_mod_cast h2
  have hc : ((((n + 1) / 2 : Nat) : ℤ) : ℚ) = (((n + 1) / 2 : Nat) : ℚ) := by
    norm_cast
  rw [eq_comm, Int.ceil_eq_iff, hc]
  constructor
  · linarith
  · linarith

/-! ## Claim theorems -/

/-- C10: the modifier-to-tiling and tiling-to-modifier conversions are
mutual inverses on the four supported values. -/
theorem mod_tiling_roundtrip :
    (igt_fb_mod_to_tiling LOCAL_DRM_FORMAT_MOD_NONE).bind igt_fb_tiling_to_mod =
      some LOCAL_DRM_FORMAT_MOD_NONE ∧
    (igt_fb_mod_to_tiling LOCAL_I915_FORMAT_MOD_X_TILED).bind igt_fb_tiling_to_mod =
      some LOCAL_I915_FORMAT_MOD_X_TILED ∧
    (igt_fb_mod_to_tiling LOCAL_I915_FORMAT_MOD_Y_TILED).bind igt_fb_tiling_to_mod =
      some LOCAL_I915_FORMAT_MOD_Y_TILED ∧
    (igt_fb_mod_to_tiling LOCAL_I915_FORMAT_MOD_Yf_TILED).bind igt_fb_tiling_to_mod =
      some LOCAL_I915_FORMAT_MOD_Yf_TILED ∧
    (igt_fb_tiling_to_mod I915_TILING_NONE).bind igt_fb_mod_to_tiling =
      some I915_TILING_NONE ∧
    (igt_fb_tiling_to_mod I915_TILING_X).bind igt_fb_mod_to_tiling =
      some I915_TILING_X ∧
    (igt_fb_tiling_to_mod I915_TILING_Y).bind igt_fb_mod_to_tiling =
      some I915_TILING_Y ∧
    (igt_fb_tiling_to_mod I915_TILING_Yf).bind igt_fb_mod_to_tiling =
      some I915_TILING_Yf := by
  decide

/-- C7: the NV12 chroma plane measures exactly the ceiling of half the
width by the ceiling of half the height, for odd and even dimensions
alike, and that is what gets recorded as plane 1 of the framebuffer. -/
theorem nv12_chroma_plane_dims (w h : Nat) :
    lookup_drm_format DRM_FORMAT_NV12 = some nv12_fmt ∧
    fb_plane_width nv12_fmt w 1 = (w + 1) / 2 ∧
    fb_plane_height nv12_fmt h 1 = (h + 1) / 2 ∧
    (((w + 1) / 2 : Nat) : ℤ) = ⌈(w : ℚ) / 2⌉ ∧
    (((h + 1) / 2 : Nat) : ℤ) = ⌈(h : ℚ) / 2⌉ := by
  refine ⟨rfl, ?_, ?_, nat_succ_half_eq_ceil w, nat_succ_half_eq_ceil h⟩ <;>
    simp [fb_plane_width, fb_plane_height, planar_width, planar_height, nv12_fmt]

/-- C1: with linear tiling, every single-plane registry format gets stride
equal to its byte width rounded up to a multiple of 64 and size equal to
stride times height, on every hardware generation; ALIGN to 64 really is
round-up to a multiple of 64. -/
theorem linear_packed_layout (dev : Device) (w h : Nat) :
    (∀ v, v ≤ ALIGN v 64 ∧ ALIGN v 64 % 64 = 0 ∧ ALIGN v 64 < v + 64) ∧
    igt_calc_fb_size dev w h DRM_FORMAT_RGB565 LOCAL_DRM_FORMAT_MOD_NONE =
      some (ALIGN (w * 2) 64 * h, ALIGN (w * 2) 64) ∧
    igt_calc_fb_size dev w h DRM_FORMAT_XRGB8888 LOCAL_DRM_FORMAT_MOD_NONE =
      some (ALIGN (w * 4) 64 * h, ALIGN (w * 4) 64) ∧
    igt_calc_fb_size dev w h DRM_FORMAT_XRGB2101010 LOCAL_DRM_FORMAT_MOD_NONE =
      some (ALIGN (w * 4) 64 * h, ALIGN (w * 4) 64) ∧
    igt_calc_fb_size dev w h DRM_FORMAT_ARGB8888 LOCAL_DRM_FORMAT_MOD_NONE =
      some (ALIGN (w * 4) 64 * h, ALIGN (w * 4) 64) := by
  refine ⟨fun v => by unfold ALIGN; omega, ?_, ?_, ?_, ?_⟩
  · rw [igt_calc_fb_size_packed_fmt dev w h DRM_FORMAT_RGB565
      LOCAL_DRM_FORMAT_MOD_NONE rgb565_fmt rfl (by decide)]
    exact calc_fb_size_packed_linear dev w h rgb565_fmt
  · rw [igt_calc_fb_size_packed_fmt dev w h DRM_FORMAT_XRGB8888
      LOCAL_DRM_FORMAT_MOD_NONE xrgb8888_fmt rfl (by decide)]
    exact calc_fb_size_packed_linear dev w h xrgb8888_fmt
  · rw [igt_calc_fb_size_packed_fmt dev w h DRM_FORMAT_XRGB2101010
      LOCAL_DRM_FORMAT_MOD_NONE xrgb2101010_fmt rfl (by decide)]
    exact calc_fb_size_packed_linear dev w h xrgb2101010_fmt
  · rw [igt_calc_fb_size_packed_fmt dev w h DRM_FORMAT_ARGB8888
      LOCAL_DRM_FORMAT_MOD_NONE argb8888_fmt rfl (by decide)]
    exact calc_fb_size_packed_linear dev w h argb8888_fmt

/-- C5: among the tiled modes, only Y tiling branches on the exact
sub-generation (the IS_915 check): its geometry differs between two
devices of the same generation, while X and Yf geometry never depends on
the IS_915 bit, and Y tiling yields the 512 by 8 tile exactly for an
IS_915 device outside generation 2. -/
theorem y_tiled_subgen_unique :
    (∀ bpp, igt_get_fb_tile_size ⟨3, true⟩ LOCAL_I915_FORMAT_MOD_Y_TILED bpp ≠
        igt_get_fb_tile_size ⟨3, false⟩ LOCAL_I915_FORMAT_MOD_Y_TILED bpp) ∧
    (∀ (g bpp : Nat) (b b' : Bool),
      igt_get_fb_tile_size ⟨g, b⟩ LOCAL_I915_FORMAT_MOD_X_TILED bpp =
        igt_get_fb_tile_size ⟨g, b'⟩ LOCAL_I915_FORMAT_MOD_X_TILED bpp) ∧
    (∀ (g bpp : Nat) (b b' : Bool),
      igt_get_fb_tile_size ⟨g, b⟩ LOCAL_I915_FORMAT_MOD_Yf_TILED bpp =
        igt_get_fb_tile_size ⟨g, b'⟩ LOCAL_I915_FORMAT_MOD_Yf_TILED bpp) ∧
    (∀ (d : Device) (bpp : Nat),
      igt_get_fb_tile_size d LOCAL_I915_FORMAT_MOD_Y_TILED bpp = some (512, 8) ↔
        (d.is915 = true ∧ d.gen ≠ 2)) := by
  refine ⟨fun bpp => ?_, fun g bpp b b' => rfl, fun g bpp b b' => rfl,
    fun d bpp => ?_⟩
  · show some (512, 8) ≠ some (128, 32)
    simp
  · obtain ⟨g, b⟩ := d
    by_cases hg : g = 2 <;> cases b <;>
      simp [igt_get_fb_tile_size, LOCAL_DRM_FORMAT_MOD_NONE,
        LOCAL_I915_FORMAT_MOD_X_TILED, LOCAL_I915_FORMAT_MOD_Y_TILED,
        LOCAL_I915_FORMAT_MOD_Yf_TILED, hg]

/-- C5 instance: the Y-tiled geometry for an IS_915, generation-3 device. -/
theorem y_tiled_subgen_unique_witness :
    igt_get_fb_tile_size ⟨3, true⟩ LOCAL_I915_FORMAT_MOD_Y_TILED 32 =
      some (512, 8) :=
  (y_tiled_subgen_unique.2.2.2 ⟨3, true⟩ 32).mpr ⟨rfl, by decide⟩

/-- C2: the NV12 layout uses as shared stride the maximum of the two
tile-aligned plane strides; plane offsets accumulate the preceding plane
contributions (shared stride times tile-aligned plane height); the slots
past the declared plane count up to 4 hold offset zero; and every
single-plane format comes out of create_bo_for_fb with all-zero offsets. -/
theorem planar_layout_invariants (dev : Device) (w h tiling tw0 th0 tw1 th1 : Nat)
    (h8 : igt_get_fb_tile_size dev tiling 8 = some (tw0, th0))
    (h16 : igt_get_fb_tile_size dev tiling 16 = some (tw1, th1)) :
    calc_fb_size_planar dev w h nv12_fmt tiling =
      some
        (max (ALIGN (planar_stride nv12_fmt w 0) tw0)
            (ALIGN (planar_stride nv12_fmt w 1) tw1) *
            ALIGN (planar_height nv12_fmt h 0) th0 +
          max (ALIGN (planar_stride nv12_fmt w 0) tw0)
            (ALIGN (planar_stride nv12_fmt w 1) tw1) *
            ALIGN (planar_height nv12_fmt h 1) th1,
          max (ALIGN (planar_stride nv12_fmt w 0) tw0)
            (ALIGN (planar_stride nv12_fmt w 1) tw1),
          [0,
            max (ALIGN (planar_stride nv12_fmt w 0) tw0)
              (ALIGN (planar_stride nv12_fmt w 1) tw1) *
              ALIGN (planar_height nv12_fmt h 0) th0,
            0, 0]) ∧
    (∀ size stride,
      create_bo_offsets dev w h rgb565_fmt tiling size stride = some [0, 0, 0, 0] ∧
      create_bo_offsets dev w h xrgb8888_fmt tiling size stride = some [0, 0, 0, 0] ∧
      create_bo_offsets dev w h xrgb2101010_fmt tiling size stride = some [0, 0, 0, 0] ∧
      create_bo_offsets dev w h argb8888_fmt tiling size stride = some [0, 0, 0, 0]) := by
  constructor
  · have hb0 : nv12_fmt.plane_bpp.getD 0 0 = 8 := rfl
    have hb1 : nv12_fmt.plane_bpp.getD 1 0 = 16 := rfl
    have hr : List.range nv12_fmt.planes = [0, 1] := rfl
    unfold calc_fb_size_planar
    rw [hr]
    simp only [planar_stride_fold, planar_size_fold, hb0, hb1, h8, h16]
    simp [List.replicate]
  · intro size stride
    refine ⟨?_, ?_, ?_, ?_⟩ <;>
      · unfold create_bo_offsets
        split
        · rw [if_neg (by decide)]
        · rfl

/-- C2 instance: the NV12 layout of a 9 by 9 linear framebuffer. -/
theorem planar_layout_invariants_witness :
    calc_fb_size_planar ⟨4, false⟩ 9 9 nv12_fmt LOCAL_DRM_FORMAT_MOD_NONE =
      some
        (max (ALIGN (planar_stride nv12_fmt 9 0) 64)
            (ALIGN (planar_stride nv12_fmt 9 1) 64) *
            ALIGN (planar_height nv12_fmt 9 0) 1 +
          max (ALIGN (planar_stride nv12_fmt 9 0) 64)
            (ALIGN (planar_stride nv12_fmt 9 1) 64) *
            ALIGN (planar_height nv12_fmt 9 1) 1,
          max (ALIGN (planar_stride nv12_fmt 9 0) 64)
            (ALIGN (planar_stride nv12_fmt 9 1) 64),
          [0,
            max (ALIGN (planar_stride nv12_fmt 9 0) 64)
              (ALIGN (planar_stride nv12_fmt 9 1) 64) *
              ALIGN (planar_height nv12_fmt 9 0) 1,
            0, 0]) :=
  (planar_layout_invariants ⟨4, false⟩ 9 9 LOCAL_DRM_FORMAT_MOD_NONE
    64 1 64 1 rfl rfl).1

/-- The doubling loop never decreases its argument. -/
theorem le_pot_loop (fuel x v : Nat) : x ≤ pot_loop fuel x v := by
  induction fuel generalizing x with
  | zero => exact Nat.le_refl x
  | succ n ih =>
    unfold pot_loop
    by_cases hlt : x < v
    · rw [if_pos hlt]
      exact le_trans (by omega) (ih (x * 2))
    · rw [if_neg hlt]

/-- The doubling loop returns its argument times a power of two. -/
theorem pot_loop_pow (fuel x v : Nat) : ∃ k, pot_loop fuel x v = x * 2 ^ k := by
  induction fuel generalizing x with
  | zero => exact ⟨0, by simp [pot_loop]⟩
  | succ n ih =>
    unfold pot_loop
    by_cases hlt : x < v
    · rw [if_pos hlt]
      obtain ⟨k, hk⟩ := ih (x * 2)
      exact ⟨k + 1, by rw [hk]; ring⟩
    · rw [if_neg hlt]
      exact ⟨0, by simp⟩

/-- With a positive start and fuel at least v minus start, the doubling
loop reaches v. -/
theorem pot_loop_ge (fuel : Nat) : ∀ x v : Nat, 1 ≤ x → v ≤ x + fuel →
    v ≤ pot_loop fuel x v := by
  induction fuel with
  | zero => intro x v _ hfe; simpa [pot_loop] using hfe
  | succ n ih =>
    intro x v hx hfe
    unfold pot_loop
    by_cases hlt : x < v
    · rw [if_pos hlt]
      exact ih (x * 2) v (by omega) (by omega)
    · rw [if_neg hlt]
      omega

/-- The doubling loop overshoots v by less than a factor of two, or never
ran its body. -/
theorem pot_loop_lt_double (fuel : Nat) : ∀ x v : Nat,
    pot_loop fuel x v < 2 * v ∨ pot_loop fuel x v = x := by
  induction fuel with
  | zero => intro x v; right; rfl
  | succ n ih =>
    intro x v
    unfold pot_loop
    by_cases hlt : x < v
    · rw [if_pos hlt]
      rcases ih (x * 2) v with h2 | h2
      · exact Or.inl h2
      · left; rw [h2]; omega
    · rw [if_neg hlt]; right; rfl

/-- If the bound is already met, the doubling loop is the identity. -/
theorem pot_loop_of_le (fuel x v : Nat) (h : v ≤ x) : pot_loop fuel x v = x := by
  cases fuel with
  | zero => rfl
  | succ n => unfold pot_loop; rw [if_neg (Nat.not_lt.mpr h)]

/-- pot_from from a power-of-two floor computes the least power of two
that is at least the floor and at least v. -/
theorem pot_from_pow2_least (e v : Nat) :
    is_pow2 (pot_from (2 ^ e) v) ∧ 2 ^ e ≤ pot_from (2 ^ e) v ∧
      v ≤ pot_from (2 ^ e) v ∧
      ∀ m, is_pow2 m → 2 ^ e ≤ m → v ≤ m → pot_from (2 ^ e) v ≤ m := by
  have hx : 1 ≤ 2 ^ e := Nat.one_le_two_pow
  obtain ⟨k, hk⟩ := pot_loop_pow v (2 ^ e) v
  have hge : v ≤ pot_from (2 ^ e) v :=
    pot_loop_ge v (2 ^ e) v hx (by omega)
  refine ⟨⟨e + k, by rw [pot_from, hk, pow_add]⟩, le_pot_loop v (2 ^ e) v, hge, ?_⟩
  rintro m ⟨j, rfl⟩ hm1 hm2
  by_cases hcase : v ≤ 2 ^ e
  · rw [pot_from, pot_loop_of_le v (2 ^ e) v hcase]
    exact hm1
  · have hlt : pot_from (2 ^ e) v < 2 * v := by
      rcases pot_loop_lt_double v (2 ^ e) v with h2 | h2
      · exact h2
      · exfalso
        rw [pot_from] at hge
        omega
    have h2m : pot_from (2 ^ e) v < 2 ^ (j + 1) := by
      rw [pow_succ]
      omega
    rw [pot_from, hk] at h2m ⊢
    rw [← pow_add] at h2m ⊢
    have : e + k < j + 1 :=
      (Nat.pow_lt_pow_iff_right (by norm_num)).mp h2m
    exact Nat.pow_le_pow_right (by norm_num) (by omega)

/-- C3: on a generation at most 3 with non-linear tiling, the packed
calculator returns as stride the least power of two at least 512 and at
least the byte width, and as size the least power of two at least 1 MiB
and at least stride times height; both are exact powers of two and at
least their untiled minimum. -/
theorem legacy_pot_sizing (dev : Device) (w h : Nat) (f : format_desc_struct)
    (tiling tw th : Nat)
    (hts : igt_get_fb_tile_size dev tiling f.bpp = some (tw, th))
    (htil : tiling ≠ LOCAL_DRM_FORMAT_MOD_NONE) (hgen : dev.gen ≤ 3) :
    calc_fb_size_packed dev w h f tiling =
      some (pot_from (1024 * 1024) (pot_from 512 (w * (f.bpp / 8)) * h),
        pot_from 512 (w * (f.bpp / 8))) ∧
    is_pow2 (pot_from 512 (w * (f.bpp / 8))) ∧
    512 ≤ pot_from 512 (w * (f.bpp / 8)) ∧
    w * (f.bpp / 8) ≤ pot_from 512 (w * (f.bpp / 8)) ∧
    (∀ m, is_pow2 m → 512 ≤ m → w * (f.bpp / 8) ≤ m →
      pot_from 512 (w * (f.bpp / 8)) ≤ m) ∧
    is_pow2 (pot_from (1024 * 1024) (pot_from 512 (w * (f.bpp / 8)) * h)) ∧
    1024 * 1024 ≤ pot_from (1024 * 1024) (pot_from 512 (w * (f.bpp / 8)) * h) ∧
    pot_from 512 (w * (f.bpp / 8)) * h ≤
      pot_from (1024 * 1024) (pot_from 512 (w * (f.bpp / 8)) * h) ∧
    (∀ m, is_pow2 m → 1024 * 1024 ≤ m → pot_from 512 (w * (f.bpp / 8)) * h ≤ m →
      pot_from (1024 * 1024) (pot_from 512 (w * (f.bpp / 8)) * h) ≤ m) := by
  have h512 : (512 : Nat) = 2 ^ 9 := rfl
  have h1m : (1024 * 1024 : Nat) = 2 ^ 20 := rfl
  obtain ⟨p1, p2, p3, p4⟩ := pot_from_pow2_least 9 (w * (f.bpp / 8))
  obtain ⟨q1, q2, q3, q4⟩ :=
    pot_from_pow2_least 20 (pot_from 512 (w * (f.bpp / 8)) * h)
  rw [← h512] at p1 p2 p3 p4
  rw [← h1m] at q1 q2 q3 q4
  refine ⟨?_, p1, p2, p3, p4, q1, q2, q3, q4⟩
  simp only [calc_fb_size_packed, hts]
  rw [if_pos ⟨htil, hgen⟩]

/-- C3 instance: RGB565 at 100 by 5, X-tiled, generation 3. -/
theorem legacy_pot_sizing_witness :
    calc_fb_size_packed ⟨3, false⟩ 100 5 rgb565_fmt
      LOCAL_I915_FORMAT_MOD_X_TILED = some (1024 * 1024, 512) :=
  (legacy_pot_sizing ⟨3, false⟩ 100 5 rgb565_fmt LOCAL_I915_FORMAT_MOD_X_TILED
    512 8 rfl (by decide) (by decide)).1

/-- Truncation toward zero agrees with the floor on nonnegative values. -/
theorem ctrunc_of_nonneg {v : ℚ} (h : 0 ≤ v) : ctrunc v = ⌊v⌋ := if_pos h

/-- On intermediates that already lie in [0, 255], the bare uint8 cast and
clamprgb agree: no wraparound can happen. -/
theorem cast_u8_eq_clamprgb {v : ℚ} (h0 : 0 ≤ v) (h1 : v ≤ 255) :
    cast_u8 v = clamprgb v := by
  have hf0 : 0 ≤ ⌊v⌋ := Int.floor_nonneg.mpr h0
  have hf1 : ⌊v⌋ ≤ 255 := by
    have h2 : ⌊v⌋ ≤ ⌊(255 : ℚ)⌋ := Int.floor_le_floor h1
    have h3 : ⌊(255 : ℚ)⌋ = 255 := by norm_num
    omega
  unfold cast_u8 clamprgb
  rw [ctrunc_of_nonneg h0, if_neg (not_lt.mpr h0), if_neg (not_lt.mpr h1),
    Int.emod_eq_of_lt hf0 (by omega)]

/-- C4: every output byte of both conversion directions equals the clamp
of its rational intermediate to [0, 255] followed by truncation: the
decoder writes through clamprgb by construction, and the encoder, whose C
code casts without clamping, always produces intermediates inside
[0, 255], so its bare casts coincide with clamp-then-truncate and never
wrap. -/
theorem conversion_outputs_clamped (r g b r' g' b' : Nat) (hr : r ≤ 255)
    (hg : g ≤ 255) (hb : b ≤ 255) (hr' : r' ≤ 255) (hg' : g' ≤ 255)
    (hb' : b' ≤ 255) :
    rgb_to_y r g b = clamprgb (encodeYf r g b) ∧
    rgb2_to_uv r g b r' g' b' =
      (clamprgb (encodeUf2 r g b r' g' b'), clamprgb (encodeVf2 r g b r' g' b')) ∧
    rgb1_to_uv r g b = (clamprgb (encodeUf1 r g b), clamprgb (encodeVf1 r g b)) ∧
    (∀ yv cb cr : Nat, yuv_to_rgb yv cb cr =
      (clamprgb (decodeR yv cb cr), clamprgb (decodeG yv cb cr),
        clamprgb (decodeB yv cb cr))) := by
  have hr0 : (0 : ℚ) ≤ r := Nat.cast_nonneg r
  have hg0 : (0 : ℚ) ≤ g := Nat.cast_nonneg g
  have hb0 : (0 : ℚ) ≤ b := Nat.cast_nonneg b
  have hr'0 : (0 : ℚ) ≤ r' := Nat.cast_nonneg r'
  have hg'0 : (0 : ℚ) ≤ g' := Nat.cast_nonneg g'
  have hb'0 : (0 : ℚ) ≤ b' := Nat.cast_nonneg b'
  have hrq : (r : ℚ) ≤ 255 := by exact_mod_cast hr
  have hgq : (g : ℚ) ≤ 255 := by exact_mod_cast hg
  have hbq : (b : ℚ) ≤ 255 := by exact_mod_cast hb
  have hr'q : (r' : ℚ) ≤ 255 := by exact_mod_cast hr'
  have hg'q : (g' : ℚ) ≤ 255 := by exact_mod_cast hg'
  have hb'q : (b' : ℚ) ≤ 255 := by exact_mod_cast hb'
  refine ⟨?_, ?_, ?_, fun yv cb cr => rfl⟩
  · exact cast_u8_eq_clamprgb
      (by unfold encodeYf; linarith) (by unfold encodeYf; linarith)
  · unfold rgb2_to_uv
    rw [cast_u8_eq_clamprgb (v := encodeUf2 r g b r' g' b')
        (by unfold encodeUf2; linarith) (by unfold encodeUf2; linarith),
      cast_u8_eq_clamprgb (v := encodeVf2 r g b r' g' b')
        (by unfold encodeVf2; linarith) (by unfold encodeVf2; linarith)]
  · unfold rgb1_to_uv
    rw [cast_u8_eq_clamprgb (v := encodeUf1 r g b)
        (by unfold encodeUf1; linarith) (by unfold encodeUf1; linarith),
      cast_u8_eq_clamprgb (v := encodeVf1 r g b)
        (by unfold encodeVf1; linarith) (by unfold encodeVf1; linarith)]

/-- C4 instance: encoder luma at a concrete pixel equals the clamped
truncation of its intermediate. -/
theorem conversion_outputs_clamped_witness :
    rgb_to_y 10 20 30 = clamprgb (encodeYf 10 20 30) :=
  (conversion_outputs_clamped 10 20 30 40 50 60 (by decide) (by decide)
    (by decide) (by decide) (by decide) (by decide)).1

/-- On [0, 255] clamprgb is plain truncation. -/
theorem clamprgb_eval {v : ℚ} (h0 : 0 ≤ v) (h1 : v ≤ 255) :
    clamprgb v = ⌊v⌋.toNat := by
  unfold clamprgb
  rw [if_neg (not_lt.mpr h0), if_neg (not_lt.mpr h1), ctrunc_of_nonneg h0]

/-- On [0, 255] the bare uint8 cast is plain truncation. -/
theorem cast_u8_eval {v : ℚ} (h0 : 0 ≤ v) (h1 : v ≤ 255) :
    cast_u8 v = ⌊v⌋.toNat := by
  rw [cast_u8_eq_clamprgb h0 h1, clamprgb_eval h0 h1]

/-- Rational value of a clamped in-range byte. -/
theorem clamprgb_cast_q {v : ℚ} (h0 : 0 ≤ v) (h1 : v ≤ 255) :
    ((clamprgb v : ℕ) : ℚ) = (⌊v⌋ : ℚ) := by
  rw [clamprgb_eval h0 h1]
  exact_mod_cast Int.toNat_of_nonneg (Int.floor_nonneg.mpr h0)

/-- C6 counterexample: the NV12 sample (235, 128, 240) is valid
limited-range YCbCr (luma in [16, 235], chroma in [16, 240]), yet decoding
it clamps the out-of-gamut red channel and re-encoding returns luma 198,
which misses the original luma 235 by 37 - far outside any small
tolerance. -/
theorem nv12_roundtrip_limited_range_fails :
    rgb_to_y (yuv_to_rgb 235 128 240).1 (yuv_to_rgb 235 128 240).2.1
      (yuv_to_rgb 235 128 240).2.2 = 198 ∧
    ((235 : ℤ) - 198).natAbs = 37 := by
  constructor
  · have h : yuv_to_rgb 235 128 240 = (255, 195, 254) := by
      norm_num [yuv_to_rgb, clamprgb, decodeR, decodeG, decodeB, ctrunc]
      exact ⟨rfl, rfl⟩
    rw [h]
    norm_num [rgb_to_y, cast_u8, encodeYf, ctrunc]
    rfl
  · decide

/-- C6 (amended): for a valid limited-range NV12 sample whose analytic RGB
image lies inside the gamut (each channel between 0 and 255, stated here
over scaled integers so that the hypothesis is decidable), decoding a
pixel and re-encoding its luma lands within 2 of the original luma. -/
theorem nv12_luma_roundtrip_ingamut (yv cb cr : Nat)
    (hy1 : 16 ≤ yv) (hy2 : yv ≤ 235) (hcb1 : 16 ≤ cb) (hcb2 : cb ≤ 240)
    (hcr1 : 16 ≤ cr) (hcr2 : cr ≤ 240)
    (hRlo : 0 ≤ 1164 * ((yv : ℤ) - 16) + 1793 * ((cr : ℤ) - 128))
    (hRhi : 1164 * ((yv : ℤ) - 16) + 1793 * ((cr : ℤ) - 128) ≤ 255000)
    (hGlo : 0 ≤ 1164 * ((yv : ℤ) - 16) - 213 * ((cb : ℤ) - 128) -
      533 * ((cr : ℤ) - 128))
    (hGhi : 1164 * ((yv : ℤ) - 16) - 213 * ((cb : ℤ) - 128) -
      533 * ((cr : ℤ) - 128) ≤ 255000)
    (hBlo : 0 ≤ 1164 * ((yv : ℤ) - 16) + 2112 * ((cb : ℤ) - 128))
    (hBhi : 1164 * ((yv : ℤ) - 16) + 2112 * ((cb : ℤ) - 128) ≤ 255000) :
    |(rgb_to_y (yuv_to_rgb yv cb cr).1 (yuv_to_rgb yv cb cr).2.1
        (yuv_to_rgb yv cb cr).2.2 : ℤ) - (yv : ℤ)| ≤ 2 := by
  have hyq1 : (16 : ℚ) ≤ yv := by exact_mod_cast hy1
  have hyq2 : (yv : ℚ) ≤ 235 := by exact_mod_cast hy2
  have hcbq1 : (16 : ℚ) ≤ cb := by exact_mod_cast hcb1
  have hcbq2 : (cb : ℚ) ≤ 240 := by exact_mod_cast hcb2
  have hcrq1 : (16 : ℚ) ≤ cr := by exact_mod_cast hcr1
  have hcrq2 : (cr : ℚ) ≤ 240 := by exact_mod_cast hcr2
  have hRlo' : (0 : ℚ) ≤ 1164 * ((yv : ℚ) - 16) + 1793 * ((cr : ℚ) - 128) := by
    exact_mod_cast hRlo
  have hRhi' : 1164 * ((yv : ℚ) - 16) + 1793 * ((cr : ℚ) - 128) ≤ 255000 := by
    exact_mod_cast hRhi
  have hGlo' : (0 : ℚ) ≤ 1164 * ((yv : ℚ) - 16) - 213 * ((cb : ℚ) - 128) -
      533 * ((cr : ℚ) - 128) := by exact_mod_cast hGlo
  have hGhi' : 1164 * ((yv : ℚ) - 16) - 213 * ((cb : ℚ) - 128) -
      533 * ((cr : ℚ) - 128) ≤ 255000 := by exact_mod_cast hGhi
  have hBlo' : (0 : ℚ) ≤ 1164 * ((yv : ℚ) - 16) + 2112 * ((cb : ℚ) - 128) := by
    exact_mod_cast hBlo
  have hBhi' : 1164 * ((yv : ℚ) - 16) + 2112 * ((cb : ℚ) - 128) ≤ 255000 := by
    exact_mod_cast hBhi
  have hRdef : decodeR yv cb cr = (1164 : ℚ) / 1000 * ((yv : ℚ) - 16) +
      (0 * ((cb : ℚ) - 128) + (1793 : ℚ) / 1000 * ((cr : ℚ) - 128)) := rfl
  have hGdef : decodeG yv cb cr = (1164 : ℚ) / 1000 * ((yv : ℚ) - 16) +
      (-((213 : ℚ) / 1000) * ((cb : ℚ) - 128) +
        -((533 : ℚ) / 1000) * ((cr : ℚ) - 128)) := rfl
  have hBdef : decodeB yv cb cr = (1164 : ℚ) / 1000 * ((yv : ℚ) - 16) +
      ((2112 : ℚ) / 1000 * ((cb : ℚ) - 128) + 0 * ((cr : ℚ) - 128)) := rfl
  have hR0 : 0 ≤ decodeR yv cb cr := by rw [hRdef]; linarith
  have hR255 : decodeR yv cb cr ≤ 255 := by rw [hRdef]; linarith
  have hG0 : 0 ≤ decodeG yv cb cr := by rw [hGdef]; linarith
  have hG255 : decodeG yv cb cr ≤ 255 := by rw [hGdef]; linarith
  have hB0 : 0 ≤ decodeB yv cb cr := by rw [hBdef]; linarith
  have hB255 : decodeB yv cb cr ≤ 255 := by rw [hBdef]; linarith
  have hRq := clamprgb_cast_q hR0 hR255
  have hGq := clamprgb_cast_q hG0 hG255
  have hBq := clamprgb_cast_q hB0 hB255
  have hRf1 : (⌊decodeR yv cb cr⌋ : ℚ) ≤ decodeR yv cb cr := Int.floor_le _
  have hRf2 : decodeR yv cb cr - 1 < (⌊decodeR yv cb cr⌋ : ℚ) :=
    Int.sub_one_lt_floor _
  have hGf1 : (⌊decodeG yv cb cr⌋ : ℚ) ≤ decodeG yv cb cr := Int.floor_le _
  have hGf2 : decodeG yv cb cr - 1 < (⌊decodeG yv cb cr⌋ : ℚ) :=
    Int.sub_one_lt_floor _
  have hBf1 : (⌊decodeB yv cb cr⌋ : ℚ) ≤ decodeB yv cb cr := Int.floor_le _
  have hBf2 : decodeB yv cb cr - 1 < (⌊decodeB yv cb cr⌋ : ℚ) :=
    Int.sub_one_lt_floor _
  have hfst : (yuv_to_rgb yv cb cr).1 = clamprgb (decodeR yv cb cr) := rfl
  have hsnd1 : (yuv_to_rgb yv cb cr).2.1 = clamprgb (decodeG yv cb cr) := rfl
  have hsnd2 : (yuv_to_rgb yv cb cr).2.2 = clamprgb (decodeB yv cb cr) := rfl
  rw [hfst, hsnd1, hsnd2]
  have hY0 : 0 ≤ encodeYf (clamprgb (decodeR yv cb cr))
      (clamprgb (decodeG yv cb cr)) (clamprgb (decodeB yv cb cr)) := by
    unfold encodeYf
    rw [hRq, hGq, hBq]
    linarith
  have hY255 : encodeYf (clamprgb (decodeR yv cb cr))
      (clamprgb (decodeG yv cb cr)) (clamprgb (decodeB yv cb cr)) ≤ 255 := by
    unfold encodeYf
    rw [hRq, hGq, hBq]
    linarith
  have hup : ⌊encodeYf (clamprgb (decodeR yv cb cr))
      (clamprgb (decodeG yv cb cr)) (clamprgb (decodeB yv cb cr))⌋ <
      (yv : ℤ) + 1 := by
    rw [Int.floor_lt]
    push_cast
    unfold encodeYf
    rw [hRq, hGq, hBq]
    linarith [hRdef, hGdef, hBdef]
  have hlo : (yv : ℤ) - 2 ≤ ⌊encodeYf (clamprgb (decodeR yv cb cr))
      (clamprgb (decodeG yv cb cr)) (clamprgb (decodeB yv cb cr))⌋ := by
    rw [Int.le_floor]
    push_cast
    unfold encodeYf
    rw [hRq, hGq, hBq]
    linarith [hRdef, hGdef, hBdef]
  rw [show rgb_to_y (clamprgb (decodeR yv cb cr)) (clamprgb (decodeG yv cb cr))
      (clamprgb (decodeB yv cb cr)) = cast_u8 (encodeYf
        (clamprgb (decodeR yv cb cr)) (clamprgb (decodeG yv cb cr))
        (clamprgb (decodeB yv cb cr))) from rfl,
    cast_u8_eval hY0 hY255,
    Int.toNat_of_nonneg (Int.floor_nonneg.mpr hY0), abs_le]
  omega

/-- C6 instance: mid-gray with neutral chroma round-trips within 2. -/
theorem nv12_luma_roundtrip_ingamut_witness :
    |(rgb_to_y (yuv_to_rgb 126 128 128).1 (yuv_to_rgb 126 128 128).2.1
        (yuv_to_rgb 126 128 128).2.2 : ℤ) - (126 : ℤ)| ≤ 2 :=
  nv12_luma_roundtrip_ingamut 126 128 128 (by decide) (by decide) (by decide)
    (by decide) (by decide) (by decide) (by decide) (by decide) (by decide)
    (by decide) (by decide) (by decide)

/-- C8: for a 9 by 9 NV12 framebuffer the linear layout is 896 bytes with
stride 64 and plane offsets 0 and 576; every luma and chroma byte the
decoder reads, including in the odd final-row branch, lies inside those
896 bytes, and the decoder writes every one of the 9 by 9 output pixels. -/
theorem nv12_9x9_decode_inbounds (dev : Device) :
    calc_fb_size_planar dev 9 9 nv12_fmt LOCAL_DRM_FORMAT_MOD_NONE =
      some (896, 64, [0, 576, 0, 0]) ∧
    ((nv12_read_indices 9 9 64 0 576).all fun idx => decide (idx < 896)) = true ∧
    ((List.range 9).all fun i => (List.range 9).all fun j =>
      decide ((i, j) ∈ nv12_write_pixels 9 9)) = true :=
  ⟨rfl, by decide, by decide⟩

/-- The packed calculator aborts exactly when the tile-size lookup does:
the tile size is fetched before any branch. -/
theorem calc_fb_size_packed_none_iff (dev : Device) (w h : Nat)
    (f : format_desc_struct) (tiling : Nat) :
    calc_fb_size_packed dev w h f tiling = none ↔
      igt_get_fb_tile_size dev tiling f.bpp = none := by
  rcases hts : igt_get_fb_tile_size dev tiling f.bpp with _ | ts
  · simp [calc_fb_size_packed, hts]
  · simp only [calc_fb_size_packed, hts]
    constructor
    · intro hnone
      exfalso
      revert hnone
      split <;> simp
    · simp

/-- The NV12 planar calculator aborts exactly when one of its two per-plane
tile-size lookups (bpp 8 and bpp 16) does. -/
theorem calc_fb_size_planar_nv12_none_iff (dev : Device) (w h tiling : Nat) :
    calc_fb_size_planar dev w h nv12_fmt tiling = none ↔
      (igt_get_fb_tile_size dev tiling 8 = none ∨
        igt_get_fb_tile_size dev tiling 16 = none) := by
  have hb0 : nv12_fmt.plane_bpp.getD 0 0 = 8 := rfl
  have hb1 : nv12_fmt.plane_bpp.getD 1 0 = 16 := rfl
  have hr : List.range nv12_fmt.planes = [0, 1] := rfl
  rcases h8 : igt_get_fb_tile_size dev tiling 8 with _ | t8 <;>
    rcases h16 : igt_get_fb_tile_size dev tiling 16 with _ | t16 <;>
    · unfold calc_fb_size_planar
      rw [hr]
      simp only [planar_stride_fold, planar_size_fold, hb0, hb1, h8, h16]
      simp

/-- C9: each operation aborts, and never returns a result, exactly on
inputs outside its supported domain - the tile-geometry resolver on an
unrecognized tiling or, for the bpp-branching Yf mode, an unrecognized
bpp; the layout calculator on a format missing from the registry or on a
tile-geometry abort of one of its planes; and the multi-plane encoder on
any format other than NV12. -/
theorem aborts_iff_unsupported :
    (∀ (dev : Device) (tiling bpp : Nat),
      igt_get_fb_tile_size dev tiling bpp = none ↔
        (¬ (tiling = LOCAL_DRM_FORMAT_MOD_NONE ∨
            tiling = LOCAL_I915_FORMAT_MOD_X_TILED ∨
            tiling = LOCAL_I915_FORMAT_MOD_Y_TILED ∨
            tiling = LOCAL_I915_FORMAT_MOD_Yf_TILED) ∨
          (tiling = LOCAL_I915_FORMAT_MOD_Yf_TILED ∧
            ¬ (bpp = 8 ∨ bpp = 16 ∨ bpp = 32 ∨ bpp = 64 ∨ bpp = 128)))) ∧
    (∀ (dev : Device) (w h fmtid tiling : Nat),
      igt_calc_fb_size dev w h fmtid tiling = none ↔
        (lookup_drm_format fmtid).elim True (fun f =>
          ∃ p, p < max f.planes 1 ∧
            igt_get_fb_tile_size dev tiling
              (if f.planes > 1 then f.plane_bpp.getD p 0 else f.bpp) = none)) ∧
    (∀ (hgt fmtid : Nat) (rgb : Nat → Nat → Nat × Nat × Nat),
      convert_rgb24_to_nv12 hgt fmtid rgb = none ↔ fmtid ≠ DRM_FORMAT_NV12) := by
  refine ⟨?_, ?_, ?_⟩
  · intro dev tiling bpp
    unfold igt_get_fb_tile_size
    by_cases h0 : tiling = LOCAL_DRM_FORMAT_MOD_NONE <;>
      by_cases h1 : tiling = LOCAL_I915_FORMAT_MOD_X_TILED <;>
      by_cases h2 : tiling = LOCAL_I915_FORMAT_MOD_Y_TILED <;>
      by_cases h3 : tiling = LOCAL_I915_FORMAT_MOD_Yf_TILED <;>
      simp [h0, h1, h2, h3] <;>
      norm_num [LOCAL_DRM_FORMAT_MOD_NONE, LOCAL_I915_FORMAT_MOD_X_TILED,
        LOCAL_I915_FORMAT_MOD_Y_TILED, LOCAL_I915_FORMAT_MOD_Yf_TILED] <;>
      (repeat' split) <;> simp <;> omega
  · intro dev w h fmtid tiling
    rcases hf : lookup_drm_format fmtid with _ | f
    · simp [igt_calc_fb_size, hf]
    · have hmem : f ∈ format_desc := List.mem_of_find?_eq_some hf
      simp only [format_desc, List.mem_cons, List.not_mem_nil, or_false] at hmem
      rcases hmem with rfl | rfl | rfl | rfl | rfl
      · rw [igt_calc_fb_size_packed_fmt dev w h fmtid tiling rgb565_fmt hf
          (by decide), calc_fb_size_packed_none_iff]
        simp only [Option.elim]
        constructor
        · intro hn
          exact ⟨0, by decide, hn⟩
        · rintro ⟨p, hp, hn⟩
          have hp' : p < 1 := hp
          interval_cases p
          exact hn
      · rw [igt_calc_fb_size_packed_fmt dev w h fmtid tiling xrgb8888_fmt hf
          (by decide), calc_fb_size_packed_none_iff]
        simp only [Option.elim]
        constructor
        · intro hn
          exact ⟨0, by decide, hn⟩
        · rintro ⟨p, hp, hn⟩
          have hp' : p < 1 := hp
          interval_cases p
          exact hn
      · rw [igt_calc_fb_size_packed_fmt dev w h fmtid tiling xrgb2101010_fmt hf
          (by decide), calc_fb_size_packed_none_iff]
        simp only [Option.elim]
        constructor
        · intro hn
          exact ⟨0, by decide, hn⟩
        · rintro ⟨p, hp, hn⟩
          have hp' : p < 1 := hp
          interval_cases p
          exact hn
      · rw [igt_calc_fb_size_packed_fmt dev w h fmtid tiling argb8888_fmt hf
          (by decide), calc_fb_size_packed_none_iff]
        simp only [Option.elim]
        constructor
        · intro hn
          exact ⟨0, by decide, hn⟩
        · rintro ⟨p, hp, hn⟩
          have hp' : p < 1 := hp
          interval_cases p
          exact hn
      · have hcalc : igt_calc_fb_size dev w h fmtid tiling = none ↔
            calc_fb_size_planar dev w h nv12_fmt tiling = none := by
          simp only [igt_calc_fb_size, hf]
          rw [if_pos (by decide)]
          rcases hp : calc_fb_size_planar dev w h nv12_fmt tiling with _ | x
          · simp
          · rcases x with ⟨size, stride, offs⟩
            simp
        rw [hcalc, calc_fb_size_planar_nv12_none_iff]
        simp only [Option.elim]
        constructor
        · rintro (hn | hn)
          · exact ⟨0, by decide, hn⟩
          · exact ⟨1, by decide, hn⟩
        · rintro ⟨p, hp, hn⟩
          have hp' : p < 2 := hp
          interval_cases p
          · exact Or.inl hn
          · exact Or.inr hn
  · intro hgt fmtid rgb
    by_cases hfmt : fmtid = DRM_FORMAT_NV12
    · simp [convert_rgb24_to_nv12, hfmt]
    · simp [convert_rgb24_to_nv12, hfmt]

/-- C9 instance: the encoder refuses a non-NV12 format id. -/
theorem aborts_iff_unsupported_witness :
    convert_rgb24_to_nv12 5 0 (fun _ _ => (0, 0, 0)) = none :=
  (aborts_iff_unsupported.2.2 5 0 (fun _ _ => (0, 0, 0))).mpr (by decide)

end IgtFb
